import Mathlib

/-!
Verification of the read-parsing and pipeline driver of `kaiju-multi.cpp`
(the `main` function of the kaiju multi-file classifier front end).

Modelling conventions, stated once:

* A text stream is modelled as a `List Line`, where `Line := List Char` is
  one line of the file without its terminating newline.  `getline` pops the
  first line (and yields the empty line when the stream is exhausted, as
  C++ `std::getline` leaves an erased string on failure for a stream that
  was still good), `istream::ignore(max, newline)` drops one line, and
  `istream::peek() == c` asks whether the next line starts with `c`
  (`peek() == EOF` asks whether the stream is exhausted).  Files are
  assumed to end with a final newline.
* `exit(EXIT_FAILURE)` / `exit(1)` after an error message is modelled by
  an `Except.error` result carrying the kind of error; every such exit has
  exit code 1 (`EXIT_FAILURE = 1` on the target platform), recorded by
  `exitCode`.
* Side effects that the claims talk about (loading the taxonomy and the
  FM-index, creating the work queue, pushing items, `pushedLast`, joining
  the worker threads, flushing the output) are recorded as an ordered
  trace of `Act`s produced by the straight-line producer code of
  `main`; the worker threads themselves are outside the model.
* `getopt` tokenisation is external (libc); the option stream is modelled
  as the list of already-recognised options with their argument strings,
  exactly the cases of the `switch` statement in `main`.
-/

/-- One line of an input file, without its newline terminator. -/
abbrev Line := List Char

/-- Decidable equality for `Except` results, so that concrete runs of
the model can be checked by `decide`. -/
instance {e a : Type} [DecidableEq e] [DecidableEq a] :
    DecidableEq (Except e a) := fun x y =>
  match x, y with
  | .ok u, .ok w =>
    if h : u = w then .isTrue (by rw [h]) else .isFalse (by simp [h])
  | .error u, .error w =>
    if h : u = w then .isTrue (by rw [h]) else .isFalse (by simp [h])
  | .ok _, .error _ => .isFalse (by simp)
  | .error _, .ok _ => .isFalse (by simp)

/-- ReadItem as constructed in `main` (ReadItem.hpp holds only these
fields): a read name, a first sequence, and optionally a second sequence
in paired mode. -/
structure ReadItem where
  name : Line
  seq1 : Line
  seq2 : Option Line
  deriving DecidableEq, Repr

/-- The string `" /\t\r"` from `main` (line 351): characters that start a
read-name suffix to be cut off. -/
def suffixStartCharacters : List Char := [' ', '/', '\t', '\r']

/-- `line_from_file.find_first_of(suffixStartCharacters)`: index of the
first character of `s` that is in `suffixStartCharacters`, `none` for
`npos`. -/
def find_first_of : Line → Option Nat
  | [] => none
  | c :: r =>
    if c ∈ suffixStartCharacters then some 0
    else (find_first_of r).map (· + 1)

/-- The read-name computation of `main` (both format branches, both
files): erase the first character (`@` or `>`), then truncate at the
first suffix-start character if there is one (`erase(n)` keeps the first
`n` characters). -/
def parseName (line : Line) : Line :=
  match find_first_of (line.drop 1) with
  | some n => (line.drop 1).take n
  | none => line.drop 1

/-- Modelled from the spec: the function `strip` lives in `util.hpp`,
which is not part of the sources; the spec says sequences pass through
`strip`, which removes any character not in the expected alphabet.  The
alphabet is modelled as the alphabetic characters. -/
def strip (s : Line) : Line := s.filter (fun c => c.isAlpha)

/-- `in1_file->peek() == '>'` in the line model: does the next line start
with `>`. -/
def isGtLine (l : Line) : Bool :=
  match l with
  | '>' :: _ => true
  | _ => false

/-- The sequence text gathered for one record after its header line:
FASTQ reads exactly one line (empty when the stream is exhausted); FASTA
concatenates lines until the next `>` line or end of file. -/
def readRaw (isFastQ : Bool) (rest : List Line) : Line :=
  if isFastQ then rest.headD []
  else ((rest.takeWhile (fun l => !isGtLine l)).flatten)

/-- The lines remaining after gathering one record's sequence: FASTQ
drops the sequence line, the `+` line and the quality line (silently
fewer when the file ends early); FASTA drops the gathered lines. -/
def readRest (isFastQ : Bool) (rest : List Line) : List Line :=
  if isFastQ then rest.drop 3
  else rest.dropWhile (fun l => !isGtLine l)

/-- Errors on which the parsing part of `main` calls `exit(EXIT_FAILURE)`. -/
inductive ParseError where
  /-- Auto-detection of the file type for file 1 failed (first non-empty
  line starts with neither `@` nor `>`). -/
  | autodetect1
  /-- Auto-detection of the file type for file 2 failed. -/
  | autodetect2
  /-- File 1 contains more reads than file 2 (paired mode, `getline` on
  file 2 fails while a read of file 1 is pending). -/
  | file1MoreReads
  /-- Read names are not identical between the two input files. -/
  | namesDesync
  deriving DecidableEq, Repr

/-- File-type detection (`firstline_file1` / `firstline_file2` logic):
once detected the stored answer is reused; on the first non-empty line,
`@` means FASTQ, `>` means FASTA, anything else is fatal. -/
def detectFormat (fmt : Option Bool) (line : Line) (e : ParseError) :
    Except ParseError Bool :=
  match fmt with
  | some b => .ok b
  | none =>
    if line.head? = some '@' then .ok true
    else if line.head? = some '>' then .ok false
    else .error e

/-- The inner `while(line_from_file.length() == 0)` loop over file 2:
skip empty lines; `none` when `getline` fails first (end of file). -/
def skipEmpties (f : List Line) : Option (Line × List Line) :=
  match f.dropWhile (fun l => l.isEmpty) with
  | [] => none
  | l :: r => some (l, r)

/-- The epilogue check on file 2 (after the loop over file 1): one more
`getline`; warn iff it succeeds with a non-empty line. -/
def warnCheck (file2 : List Line) : Bool :=
  match file2 with
  | [] => false
  | l :: _ => !l.isEmpty

/-- The `while(getline(*in1_file, line_from_file))` loop of `main` for
one input file (pair): returns the `ReadItem`s pushed to the work queue
in order, together with either the fatal `ParseError` that aborted the
program or, on success, the flag of the extra-reads-in-file-2 warning.
`fmt1`/`fmt2` carry the already-detected file types (`none` while
`firstline_file1` / `firstline_file2` is still true). -/
def parseLoop (paired : Bool) (fmt1 fmt2 : Option Bool)
    (file1 file2 : List Line) : List ReadItem × Except ParseError Bool :=
  match file1 with
  | [] => ([], .ok (if paired then warnCheck file2 else false))
  | line :: rest1 =>
    if line.isEmpty then parseLoop paired fmt1 fmt2 rest1 file2
    else
      match detectFormat fmt1 line .autodetect1 with
      | .error e => ([], .error e)
      | .ok isFastQ1 =>
        let name := parseName line
        let seq1 := strip (readRaw isFastQ1 rest1)
        if paired then
          match skipEmpties file2 with
          | none => ([], .error .file1MoreReads)
          | some (line2, rest2) =>
            match detectFormat fmt2 line2 .autodetect2 with
            | .error e => ([], .error e)
            | .ok isFastQ2 =>
              if parseName line2 ≠ name then ([], .error .namesDesync)
              else
                let seq2 := strip (readRaw isFastQ2 rest2)
                let p := parseLoop true (some isFastQ1) (some isFastQ2)
                  (readRest isFastQ1 rest1) (readRest isFastQ2 rest2)
                (⟨name, seq1, some seq2⟩ :: p.1, p.2)
        else
          let p := parseLoop false (some isFastQ1) fmt2
            (readRest isFastQ1 rest1) file2
          (⟨name, seq1, none⟩ :: p.1, p.2)
termination_by file1.length
decreasing_by
  · simp
  · simp only [List.length_cons]
    unfold readRest
    split
    · simp only [List.length_drop]
      omega
    · exact Nat.lt_succ_of_le ((List.dropWhile_suffix _).sublist.length_le)
  · simp only [List.length_cons]
    unfold readRest
    split
    · simp only [List.length_drop]
      omega
    · exact Nat.lt_succ_of_le ((List.dropWhile_suffix _).sublist.length_le)

/-- Run mode constants (`MEM` / `GREEDY`). -/
inductive Mode where
  | MEM
  | GREEDY
  deriving DecidableEq, Repr

/-- Modelled from the spec: the `Config` class lives in `Config.hpp`,
which is not part of the sources; the defaults are the ones the spec's
flag table states (mode greedy, 3 mismatches, seed length 7, minimum
fragment length 11, minimum score 65, SEG enabled, protein input off,
E-value off, 1 thread).  The locals of `main` (`num_threads`, `paired`,
the filename strings, `verbose`, `debug`) are carried in the same
record. -/
structure Params where
  mode : Mode
  input_is_protein : Bool
  SEG : Bool
  seed_length : Int
  min_score : Int
  min_fragment_length : Int
  mismatches : Int
  min_Evalue : ℚ
  use_Evalue : Bool
  num_threads : Int
  paired : Bool
  nodes_filename : Line
  fmi_filename : Line
  in1_filename : Line
  in2_filename : Line
  output_filename : Line
  verbose : Bool
  debug : Bool
  deriving DecidableEq, Repr

/-- The state of `config` and of `main`'s locals before the `getopt`
loop runs. -/
def defaultParams : Params where
  mode := .GREEDY
  input_is_protein := false
  SEG := true
  seed_length := 7
  min_score := 65
  min_fragment_length := 11
  mismatches := 3
  min_Evalue := 0
  use_Evalue := false
  num_threads := 1
  paired := false
  nodes_filename := []
  fmi_filename := []
  in1_filename := []
  in2_filename := []
  output_filename := []
  verbose := false
  debug := false

/-- Whitespace as recognised by `isspace` in the C locale, used by
`std::stoi` / `std::stod` when skipping leading whitespace. -/
def isSpaceChar (c : Char) : Bool :=
  c = ' ' || c = '\t' || c = '\n' || c = '\x0b' || c = '\x0c' || c = '\r'

/-- Value of a list of decimal digit characters. -/
def natOfDigits (l : List Char) : Nat :=
  l.foldl (fun a c => a * 10 + (c.toNat - '0'.toNat)) 0

/-- Optional leading sign of a numeric literal. -/
def readSign : Line → Int × Line
  | '-' :: r => (-1, r)
  | '+' :: r => (1, r)
  | s => (1, s)

/-- The two exceptions of `std::stoi` / `std::stod` that `main` catches:
`std::invalid_argument` (no digits to convert) and `std::out_of_range`
(converted value outside the result type's range). -/
inductive NumErr where
  | invalidArgument
  | outOfRange
  deriving DecidableEq, Repr

/-- `std::stoi(optarg)`: skip whitespace, optional sign, longest run of
decimal digits (trailing junk ignored); no digits raises
`invalid_argument`, a value outside the 32-bit `int` range raises
`out_of_range`. -/
def stoi (s : Line) : Except NumErr Int :=
  let sg := readSign (s.dropWhile isSpaceChar)
  let ds := sg.2.takeWhile (fun c => c.isDigit)
  if ds.isEmpty then .error .invalidArgument
  else
    let v : Int := sg.1 * (natOfDigits ds : Int)
    if v < -(2 ^ 31) ∨ 2 ^ 31 - 1 < v then .error .outOfRange
    else .ok v

/-- Largest finite IEEE-754 double, `(2^53 - 1) * 2^971`. -/
def maxDouble : ℚ := ((2 ^ 53 - 1) * 2 ^ 971 : ℕ)

/-- `std::stod(optarg)` on decimal notation, with the value kept exact
in `ℚ`: skip whitespace, optional sign, digits with an optional fraction
part, an optional well-formed exponent (an `e` not followed by digits is
trailing junk and ignored, as `strtod` backs up over it); no mantissa
digits raises `invalid_argument`, magnitude beyond the largest double
raises `out_of_range`.  Hexadecimal floats, `inf`/`nan` forms and
underflow are outside the model. -/
def stod (s : Line) : Except NumErr ℚ :=
  let sg := readSign (s.dropWhile isSpaceChar)
  let d1 := sg.2.takeWhile (fun c => c.isDigit)
  let s2 := sg.2.dropWhile (fun c => c.isDigit)
  let fr : Line × Line :=
    match s2 with
    | '.' :: r => (r.takeWhile (fun c => c.isDigit), r.dropWhile (fun c => c.isDigit))
    | _ => ([], s2)
  if d1.isEmpty && fr.1.isEmpty then .error .invalidArgument
  else
    let num0 : Int :=
      sg.1 * ((natOfDigits d1 : Int) * (10 : Int) ^ fr.1.length + (natOfDigits fr.1 : Int))
    let ex : Int :=
      match fr.2 with
      | c :: r =>
        if c = 'e' || c = 'E' then
          let esg := readSign r
          let ed := esg.2.takeWhile (fun c => c.isDigit)
          if ed.isEmpty then 0 else esg.1 * (natOfDigits ed : Int)
        else 0
      | [] => 0
    let v : ℚ :=
      if 0 ≤ ex then mkRat (num0 * (10 : Int) ^ ex.toNat) ((10 : ℕ) ^ fr.1.length)
      else mkRat num0 ((10 : ℕ) ^ fr.1.length * (10 : ℕ) ^ (-ex).toNat)
    if v < -maxDouble ∨ maxDouble < v then .error .outOfRange
    else .ok v

/-- An error on which the `getopt` loop or the argument checks call
`usage`, which prints the usage text and calls `exit(EXIT_FAILURE)`. -/
inductive ExitErr where
  | usageExit
  deriving DecidableEq, Repr

/-- `case 'l'`: a `stoi` exception prints to stderr and leaves the
config untouched; a parsed value below 7 is fatal via `usage`; otherwise
the seed length is stored. -/
def handle_l (P : Params) (arg : Line) : Except ExitErr Params :=
  match stoi arg with
  | .error _ => .ok P
  | .ok v => if v < 7 then .error .usageExit else .ok { P with seed_length := v }

/-- `case 's'`: like `handle_l` with the bound `min_score > 0`. -/
def handle_s (P : Params) (arg : Line) : Except ExitErr Params :=
  match stoi arg with
  | .error _ => .ok P
  | .ok v => if v ≤ 0 then .error .usageExit else .ok { P with min_score := v }

/-- `case 'm'`: like `handle_l` with the bound `min_fragment_length > 0`. -/
def handle_m (P : Params) (arg : Line) : Except ExitErr Params :=
  match stoi arg with
  | .error _ => .ok P
  | .ok v => if v ≤ 0 then .error .usageExit else .ok { P with min_fragment_length := v }

/-- `case 'e'`: like `handle_l` with the bound `mismatches ≥ 0`. -/
def handle_e (P : Params) (arg : Line) : Except ExitErr Params :=
  match stoi arg with
  | .error _ => .ok P
  | .ok v => if v < 0 then .error .usageExit else .ok { P with mismatches := v }

/-- `case 'E'`: a `stod` exception prints to stderr and continues; a
parsed value `≤ 0` is fatal via `usage`; otherwise the threshold is
stored and `use_Evalue` is switched on. -/
def handle_E (P : Params) (arg : Line) : Except ExitErr Params :=
  match stod arg with
  | .error _ => .ok P
  | .ok v =>
    if v ≤ 0 then .error .usageExit
    else .ok { P with min_Evalue := v, use_Evalue := true }

/-- `case 'z'`: like `handle_l` with the bound `num_threads > 0`. -/
def handle_z (P : Params) (arg : Line) : Except ExitErr Params :=
  match stoi arg with
  | .error _ => .ok P
  | .ok v => if v ≤ 0 then .error .usageExit else .ok { P with num_threads := v }

/-- One recognised command-line option with its argument string, as
delivered by `getopt` with the option string
`"a:hdpxXvn:m:e:E:l:t:f:i:j:s:z:o:"`. -/
inductive Opt where
  | a (s : Line)
  | h
  | d
  | v
  | p
  | x
  | X
  | o (s : Line)
  | f (s : Line)
  | t (s : Line)
  | i (s : Line)
  | j (s : Line)
  | l (s : Line)
  | s (s : Line)
  | m (s : Line)
  | e (s : Line)
  | E (s : Line)
  | z (s : Line)
  deriving DecidableEq, Repr

/-- The body of the `switch` in the `getopt` loop of `main`. -/
def processOpt (P : Params) : Opt → Except ExitErr Params
  | .a s =>
    if s = ['m', 'e', 'm'] then .ok { P with mode := .MEM }
    else if s = ['g', 'r', 'e', 'e', 'd', 'y'] then .ok { P with mode := .GREEDY }
    else .error .usageExit
  | .h => .error .usageExit
  | .d => .ok { P with debug := true }
  | .v => .ok { P with verbose := true }
  | .p => .ok { P with input_is_protein := true }
  | .x => .ok { P with SEG := true }
  | .X => .ok { P with SEG := false }
  | .o s => .ok { P with output_filename := s }
  | .f s => .ok { P with fmi_filename := s }
  | .t s => .ok { P with nodes_filename := s }
  | .i s => .ok { P with in1_filename := s }
  | .j s => .ok { P with in2_filename := s, paired := true }
  | .l s => handle_l P s
  | .s s => handle_s P s
  | .m s => handle_m P s
  | .e s => handle_e P s
  | .E s => handle_E P s
  | .z s => handle_z P s

/-- The whole `getopt` loop: process the options left to right, stopping
at the first fatal one. -/
def foldOpts : Params → List Opt → Except ExitErr Params
  | P, [] => .ok P
  | P, o :: rest =>
    match processOpt P o with
    | .error e => .error e
    | .ok Q => foldOpts Q rest

/-- Errors of the post-loop argument checks (lines 194-198 of `main`),
in their source order; each one exits through `usage`. -/
inductive ArgErr where
  | missingNodes
  | missingFmi
  | missingInput
  | pairedProtein
  | evalueNotGreedy
  deriving DecidableEq, Repr

/-- The five argument checks that follow the `getopt` loop, in source
order. -/
def validate (P : Params) : Except ArgErr Unit :=
  if P.nodes_filename.isEmpty then .error .missingNodes
  else if P.fmi_filename.isEmpty then .error .missingFmi
  else if P.in1_filename.isEmpty then .error .missingInput
  else if P.paired && P.input_is_protein then .error .pairedProtein
  else if P.use_Evalue && decide (P.mode ≠ Mode.GREEDY) then .error .evalueNotGreedy
  else .ok ()

/-- The comma-splitting loops of `main`: split a filename list on `,`
and drop empty components. -/
def splitList (s : Line) : List Line :=
  (s.splitOn ',').filter (fun x => !x.isEmpty)

/-- The condition of the list-length sanity check (lines 260-263),
transcribed with C++ precedence resolved: `&` on `bool` has the truth
table of `&&`, and binds tighter than `&&`, which binds tighter than
`||`. -/
def lengthCheckFails (out : Line) (paired : Bool) (n1 n2 no : Nat) : Bool :=
  (decide (0 < out.length) &&
    ((paired && (decide (n1 ≠ n2) || decide (n1 ≠ no))) ||
     (!paired && decide (n1 ≠ no)))) ||
  ((decide (out.length = 0) && paired) && decide (n1 ≠ n2))

/-- Observable steps of the producer code of `main`, in program order. -/
inductive Act where
  | loadTaxonomy
  | loadFMI
  | openOutput
  | createQueue (capacity : Nat)
  | startThreads (n : Int)
  | pushItem (it : ReadItem)
  | pushedLast
  | warnExtraReads
  | joinAll
  | flushOut
  deriving DecidableEq, Repr

/-- The actions at the head of one file-pair iteration: open the output
file when `-o` was given, construct the `ProducerConsumerQueue` with
capacity 500, start the worker threads. -/
def startActs (hasOut : Bool) (z : Int) : List Act :=
  (if hasOut then [Act.openOutput] else []) ++
    [Act.createQueue 500, Act.startThreads z]

/-- The full action trace of one successfully processed file pair:
start-up, one push per `ReadItem` in order, `pushedLast` exactly once,
optionally the extra-reads warning, then join all workers and flush the
output stream. -/
def pairBlock (hasOut : Bool) (z : Int) (items : List ReadItem) (w : Bool) :
    List Act :=
  startActs hasOut z ++ items.map Act.pushItem ++ [Act.pushedLast] ++
    (if w then [Act.warnExtraReads] else []) ++ [Act.joinAll, Act.flushOut]

/-- Warning flag of a finished parse; `false` on the error side (a fatal
parse error exits before the warning check). -/
def okWarn : Except ParseError Bool → Bool
  | .ok w => w
  | .error _ => false

/-- Ways `main` terminates with `exit` in the modelled region. -/
inductive MainErr where
  | exitOpt (e : ExitErr)
  | exitArg (e : ArgErr)
  | listLengthMismatch
  | parseFail (e : ParseError)
  deriving DecidableEq, Repr

/-- Every modelled `exit` uses status `1` (`exit(1)` for the
list-length check, `exit(EXIT_FAILURE)` everywhere else, and
`EXIT_FAILURE = 1` on the target platform). -/
def exitCode : MainErr → Nat := fun _ => 1

/-- The `for(i_files ...)` loop over the file pairs: each pair is parsed
by `parseLoop`; a fatal parse error stops the program at once (after the
start-up actions and the pushes already made), a successful pair
contributes its `pairBlock` and the loop advances. -/
def processPairs (z : Int) (hasOut paired : Bool) :
    List (List Line × List Line) → List Act × Except MainErr Unit
  | [] => ([], .ok ())
  | pr :: rest =>
    let r := parseLoop paired none none pr.1 pr.2
    match r.2 with
    | .error e =>
      (startActs hasOut z ++ r.1.map Act.pushItem, .error (.parseFail e))
    | .ok w =>
      let tail := processPairs z hasOut paired rest
      (pairBlock hasOut z r.1 w ++ tail.1, tail.2)

/-- Pair each input filename with its content (and its mate's content in
paired mode; the second component is unused otherwise), `fs` being the
file system as a map from filename to lines. -/
def mkPairs (paired : Bool) (fs : Line → List Line) (l1 l2 : List Line) :
    List (List Line × List Line) :=
  if paired then (l1.zip l2).map (fun pr => (fs pr.1, fs pr.2))
  else l1.map (fun f1 => (fs f1, []))

/-- `main` from the `getopt` loop to the end, as a pair of the ordered
action trace and the outcome: option processing, the argument checks,
list splitting and the length check all precede any action; then the
taxonomy and the FM-index are loaded and the file pairs are processed.
(The input-readability probe loop is modelled as always succeeding.) -/
def mainModel (opts : List Opt) (fs : Line → List Line) :
    List Act × Except MainErr Unit :=
  match foldOpts defaultParams opts with
  | .error e => ([], .error (.exitOpt e))
  | .ok P =>
    match validate P with
    | .error e => ([], .error (.exitArg e))
    | .ok _ =>
      let l1 := splitList P.in1_filename
      let l2 := splitList P.in2_filename
      let lo := splitList P.output_filename
      if lengthCheckFails P.output_filename P.paired l1.length l2.length lo.length
      then ([], .error .listLengthMismatch)
      else
        let pr := processPairs P.num_threads (!P.output_filename.isEmpty) P.paired
          (mkPairs P.paired fs l1 l2)
        ([Act.loadTaxonomy, Act.loadFMI] ++ pr.1, pr.2)

/-- The `pairBlock` a successfully parsed pair contributes. -/
def blockOf (hasOut : Bool) (z : Int) (paired : Bool)
    (pr : List Line × List Line) : List Act :=
  let r := parseLoop paired none none pr.1 pr.2
  pairBlock hasOut z r.1 (okWarn r.2)

/-! Helper lemmas shared by the claim proofs. -/

theorem takeWhile_append_all {α : Type} (p : α → Bool) (body rest : List α)
    (h : ∀ l ∈ body, p l = true) :
    (body ++ rest).takeWhile p = body ++ rest.takeWhile p := by
  induction body with
  | nil => simp
  | cons a t ih =>
    have ha : p a = true := h a (by simp)
    simp only [List.cons_append, List.takeWhile_cons, ha, if_true]
    rw [ih (fun l hl => h l (by simp [hl]))]

theorem dropWhile_append_all {α : Type} (p : α → Bool) (body rest : List α)
    (h : ∀ l ∈ body, p l = true) :
    (body ++ rest).dropWhile p = rest.dropWhile p := by
  induction body with
  | nil => simp
  | cons a t ih =>
    have ha : p a = true := h a (by simp)
    simp only [List.cons_append, List.dropWhile_cons, ha, if_true]
    exact ih (fun l hl => h l (by simp [hl]))

theorem takeWhile_head_false {α : Type} (p : α → Bool) :
    ∀ l : List α, (l = [] ∨ ∃ c cs, l = c :: cs ∧ p c = false) →
      l.takeWhile p = [] := by
  intro l h
  rcases h with h | ⟨c, cs, rfl, hc⟩
  · simp [h]
  · simp [List.takeWhile_cons, hc]

theorem dropWhile_head_false {α : Type} (p : α → Bool) :
    ∀ l : List α, (l = [] ∨ ∃ c cs, l = c :: cs ∧ p c = false) →
      l.dropWhile p = l := by
  intro l h
  rcases h with h | ⟨c, cs, rfl, hc⟩
  · simp [h]
  · simp [List.dropWhile_cons, hc]

theorem dropWhile_head_not {α : Type} (p : α → Bool) (l : List α) :
    ∀ c cs, l.dropWhile p = c :: cs → p c = false := by
  induction l with
  | nil => intro c cs h; simp at h
  | cons a t ih =>
    intro c cs h
    by_cases ha : p a = true
    · rw [List.dropWhile_cons, if_pos ha] at h
      exact ih c cs h
    · rw [List.dropWhile_cons, if_neg ha] at h
      cases h
      simpa using ha

theorem parseName_eq_takeWhile (line : Line) :
    parseName line =
      (line.drop 1).takeWhile (fun c => !decide (c ∈ suffixStartCharacters)) := by
  unfold parseName
  generalize line.drop 1 = s
  induction s with
  | nil => rfl
  | cons c r ih =>
    have hpred : ∀ a : Char,
        (fun c => !decide (c ∈ suffixStartCharacters)) a = !decide (a ∈ suffixStartCharacters) :=
      fun a => rfl
    by_cases hc : c ∈ suffixStartCharacters
    · simp [find_first_of, hc]
    · have hcd : decide (c ∈ suffixStartCharacters) = false := by simp [hc]
      simp only [find_first_of, if_neg hc, List.takeWhile_cons, hpred, hcd,
        Bool.not_false, if_true]
      cases hfind : find_first_of r with
      | none =>
        rw [hfind] at ih
        exact congrArg (c :: ·) ih
      | some n =>
        rw [hfind] at ih
        show (c :: r).take (n + 1) =
          c :: List.takeWhile (fun c => !decide (c ∈ suffixStartCharacters)) r
        rw [List.take_succ_cons]
        exact congrArg (c :: ·) ih

/-- Unfolding of `parseLoop` on an exhausted file 1. -/
theorem parseLoop_nil (paired : Bool) (fmt1 fmt2 : Option Bool) (file2 : List Line) :
    parseLoop paired fmt1 fmt2 [] file2 =
      ([], .ok (if paired then warnCheck file2 else false)) := by
  unfold parseLoop
  rfl

/-- Unfolding of `parseLoop` on an empty line of file 1: skipped. -/
theorem parseLoop_skip (paired : Bool) (fmt1 fmt2 : Option Bool)
    (line : Line) (rest1 file2 : List Line) (h : line.isEmpty = true) :
    parseLoop paired fmt1 fmt2 (line :: rest1) file2 =
      parseLoop paired fmt1 fmt2 rest1 file2 := by
  conv_lhs => unfold parseLoop
  simp [h]

/-- Unfolding of `parseLoop`, unpaired mode, on a non-empty line with
the format already decided: one record is read and pushed, the loop
continues on the remaining lines. -/
theorem parseLoop_cons_unpaired (b : Bool) (fmt2 : Option Bool) (line : Line)
    (rest1 file2 : List Line) (hl : line.isEmpty = false) :
    parseLoop false (some b) fmt2 (line :: rest1) file2 =
      (⟨parseName line, strip (readRaw b rest1), none⟩ ::
        (parseLoop false (some b) fmt2 (readRest b rest1) file2).1,
       (parseLoop false (some b) fmt2 (readRest b rest1) file2).2) := by
  conv_lhs => unfold parseLoop
  simp [hl, detectFormat]

/-- Unfolding of `parseLoop` on a non-empty line when format detection
for file 1 fails: fatal, nothing pushed. -/
theorem parseLoop_detect1_fail (paired : Bool) (fmt1 fmt2 : Option Bool)
    (line : Line) (rest1 file2 : List Line) (hl : line.isEmpty = false)
    (e : ParseError) (hd : detectFormat fmt1 line .autodetect1 = .error e) :
    parseLoop paired fmt1 fmt2 (line :: rest1) file2 = ([], .error e) := by
  conv_lhs => unfold parseLoop
  simp [hl, hd]

/-- Unfolding of `parseLoop`, paired mode, when file 2 has only empty
lines left while a read of file 1 is pending: fatal. -/
theorem parseLoop_paired_file2Exhausted (fmt1 fmt2 : Option Bool) (line : Line)
    (rest1 file2 : List Line) (hl : line.isEmpty = false)
    (b1 : Bool) (hd1 : detectFormat fmt1 line .autodetect1 = .ok b1)
    (h2 : skipEmpties file2 = none) :
    parseLoop true fmt1 fmt2 (line :: rest1) file2 =
      ([], .error .file1MoreReads) := by
  conv_lhs => unfold parseLoop
  simp [hl, hd1, h2]

/-- Unfolding of `parseLoop`, paired mode, when format detection for
file 2 fails on its first non-empty line: fatal. -/
theorem parseLoop_detect2_fail (fmt1 fmt2 : Option Bool) (line line2 : Line)
    (rest1 file2 rest2 : List Line) (hl : line.isEmpty = false)
    (b1 : Bool) (hd1 : detectFormat fmt1 line .autodetect1 = .ok b1)
    (h2 : skipEmpties file2 = some (line2, rest2))
    (e : ParseError) (hd2 : detectFormat fmt2 line2 .autodetect2 = .error e) :
    parseLoop true fmt1 fmt2 (line :: rest1) file2 = ([], .error e) := by
  conv_lhs => unfold parseLoop
  simp [hl, hd1, h2, hd2]

/-- Unfolding of `parseLoop`, paired mode, when the truncated names of
the pending records of the two files differ: fatal. -/
theorem parseLoop_paired_desync (fmt1 fmt2 : Option Bool) (line line2 : Line)
    (rest1 file2 rest2 : List Line) (hl : line.isEmpty = false)
    (b1 : Bool) (hd1 : detectFormat fmt1 line .autodetect1 = .ok b1)
    (h2 : skipEmpties file2 = some (line2, rest2))
    (b2 : Bool) (hd2 : detectFormat fmt2 line2 .autodetect2 = .ok b2)
    (hne : parseName line2 ≠ parseName line) :
    parseLoop true fmt1 fmt2 (line :: rest1) file2 =
      ([], .error .namesDesync) := by
  conv_lhs => unfold parseLoop
  simp [hl, hd1, h2, hd2, hne]

/-- Unfolding of `parseLoop`, paired mode, on a matching pair of
records: the paired `ReadItem` is pushed and the loop continues. -/
theorem parseLoop_paired_step (fmt1 fmt2 : Option Bool) (line line2 : Line)
    (rest1 file2 rest2 : List Line) (hl : line.isEmpty = false)
    (b1 : Bool) (hd1 : detectFormat fmt1 line .autodetect1 = .ok b1)
    (h2 : skipEmpties file2 = some (line2, rest2))
    (b2 : Bool) (hd2 : detectFormat fmt2 line2 .autodetect2 = .ok b2)
    (heq : parseName line2 = parseName line) :
    parseLoop true fmt1 fmt2 (line :: rest1) file2 =
      (⟨parseName line, strip (readRaw b1 rest1), some (strip (readRaw b2 rest2))⟩ ::
        (parseLoop true (some b1) (some b2) (readRest b1 rest1) (readRest b2 rest2)).1,
       (parseLoop true (some b1) (some b2) (readRest b1 rest1) (readRest b2 rest2)).2) := by
  conv_lhs => unfold parseLoop
  simp [hl, hd1, h2, hd2, heq]

/-- A file tail consisting of empty lines only makes the file-2 skip
loop hit end of file. -/
theorem skipEmpties_none_of_all (file2 : List Line) (h : ∀ x ∈ file2, x = []) :
    skipEmpties file2 = none := by
  unfold skipEmpties
  have hd : file2.dropWhile (fun l => l.isEmpty) = [] := by
    induction file2 with
    | nil => rfl
    | cons a t ih =>
      have ha : a = [] := h a (by simp)
      rw [List.dropWhile_cons]
      simp only [ha, List.isEmpty_nil, if_true]
      exact ih (fun x hx => h x (by simp [hx]))
  rw [hd]

/-- Empty lines at the front of file 2 are transparent to the skip
loop. -/
theorem skipEmpties_append_empties (es f : List Line) (h : ∀ x ∈ es, x = []) :
    skipEmpties (es ++ f) = skipEmpties f := by
  unfold skipEmpties
  rw [dropWhile_append_all _ es f (fun l hl => by simp [h l hl])]

/-- Once the first non-empty line of file 1 has been seen, running with
the freshly detected format equals running with that format already
stored. -/
theorem parseLoop_detect_switch (paired : Bool) (fmt2 : Option Bool)
    (line : Line) (rest1 file2 : List Line) (hl : line.isEmpty = false)
    (b : Bool) (hd : detectFormat none line .autodetect1 = .ok b) :
    parseLoop paired none fmt2 (line :: rest1) file2 =
      parseLoop paired (some b) fmt2 (line :: rest1) file2 := by
  conv_lhs => unfold parseLoop
  conv_rhs => unfold parseLoop
  simp only [hl, Bool.false_eq_true, if_false]
  rw [hd]
  rfl

/-- Claim C5: for any header line beginning with `@` or `>`, the stored
read name is the header with its leading character removed, truncated at
the first space, slash, tab or carriage return: it equals the longest
prefix free of suffix-start characters, it contains no suffix-start
character, everything cut off starts (if non-empty) with a suffix-start
character, and it is exactly the name field of the `ReadItem` the parser
pushes for that header. -/
theorem claim_C5_name_truncation (line : Line)
    (h : line.head? = some '@' ∨ line.head? = some '>') :
    parseName line =
      (line.drop 1).takeWhile (fun c => !decide (c ∈ suffixStartCharacters)) ∧
    (∀ c ∈ parseName line, c ∉ suffixStartCharacters) ∧
    (∃ cut, line.drop 1 = parseName line ++ cut ∧
      (cut = [] ∨ ∃ c cs, cut = c :: cs ∧ c ∈ suffixStartCharacters)) ∧
    (∀ b : Bool, ∀ fmt2 : Option Bool, ∀ rest1 file2 : List Line,
      ((parseLoop false (some b) fmt2 (line :: rest1) file2).1.head?).map ReadItem.name =
        some (parseName line)) := by
  have hl : line.isEmpty = false := by
    cases line with
    | nil => simp at h
    | cons a t => simp
  refine ⟨parseName_eq_takeWhile line, ?_, ?_, ?_⟩
  · intro c hc
    rw [parseName_eq_takeWhile] at hc
    have := List.mem_takeWhile_imp hc
    simpa using this
  · refine ⟨(line.drop 1).dropWhile (fun c => !decide (c ∈ suffixStartCharacters)), ?_, ?_⟩
    · rw [parseName_eq_takeWhile]
      exact (List.takeWhile_append_dropWhile _ _).symm
    · cases hcut : (line.drop 1).dropWhile (fun c => !decide (c ∈ suffixStartCharacters)) with
      | nil => exact Or.inl rfl
      | cons c cs =>
        refine Or.inr ⟨c, cs, rfl, ?_⟩
        have := dropWhile_head_not _ _ _ _ hcut
        simpa using this
  · intro b fmt2 rest1 file2
    rw [parseLoop_cons_unpaired b fmt2 line rest1 file2 hl]
    rfl

/-- Witness for C5 at the FASTQ-style header `@r1/2 x`. -/
theorem claim_C5_witness :
    parseName ['@', 'r', '1', '/', '2', ' ', 'x'] =
      (['@', 'r', '1', '/', '2', ' ', 'x'].drop 1).takeWhile
        (fun c => !decide (c ∈ suffixStartCharacters)) ∧
    (∀ c ∈ parseName ['@', 'r', '1', '/', '2', ' ', 'x'],
      c ∉ suffixStartCharacters) ∧
    (∃ cut, ['@', 'r', '1', '/', '2', ' ', 'x'].drop 1 =
        parseName ['@', 'r', '1', '/', '2', ' ', 'x'] ++ cut ∧
      (cut = [] ∨ ∃ c cs, cut = c :: cs ∧ c ∈ suffixStartCharacters)) ∧
    (∀ b : Bool, ∀ fmt2 : Option Bool, ∀ rest1 file2 : List Line,
      ((parseLoop false (some b) fmt2 (['@', 'r', '1', '/', '2', ' ', 'x'] :: rest1)
          file2).1.head?).map ReadItem.name =
        some (parseName ['@', 'r', '1', '/', '2', ' ', 'x'])) :=
  claim_C5_name_truncation ['@', 'r', '1', '/', '2', ' ', 'x'] (Or.inl rfl)

/-- Claim C4: the file format is decided from the first character of the
first non-empty line.  Empty lines before the first record are skipped
(for file 1 by the outer loop, for file 2 by the skip loop), `@` makes
the whole file parse as FASTQ, `>` as FASTA, and any other first
character is a fatal auto-detection error, for either input file. -/
theorem claim_C4_autodetect :
    (∀ paired : Bool, ∀ fmt1 fmt2 : Option Bool, ∀ es f1 file2 : List Line,
      (∀ l ∈ es, l = ([] : Line)) →
      parseLoop paired fmt1 fmt2 (es ++ f1) file2 =
        parseLoop paired fmt1 fmt2 f1 file2) ∧
    (∀ paired : Bool, ∀ fmt2 : Option Bool, ∀ c : Char, ∀ cs : Line,
      ∀ rest file2 : List Line, c ≠ '@' → c ≠ '>' →
      parseLoop paired none fmt2 ((c :: cs) :: rest) file2 =
        ([], .error .autodetect1)) ∧
    (∀ paired : Bool, ∀ fmt2 : Option Bool, ∀ cs : Line, ∀ rest file2 : List Line,
      parseLoop paired none fmt2 (('@' :: cs) :: rest) file2 =
        parseLoop paired (some true) fmt2 (('@' :: cs) :: rest) file2) ∧
    (∀ paired : Bool, ∀ fmt2 : Option Bool, ∀ cs : Line, ∀ rest file2 : List Line,
      parseLoop paired none fmt2 (('>' :: cs) :: rest) file2 =
        parseLoop paired (some false) fmt2 (('>' :: cs) :: rest) file2) ∧
    (∀ fmt1 : Option Bool, ∀ b1 : Bool, ∀ line : Line, ∀ rest1 file2 : List Line,
      ∀ c2 : Char, ∀ cs2 : Line, ∀ rest2 : List Line,
      line.isEmpty = false → detectFormat fmt1 line .autodetect1 = .ok b1 →
      skipEmpties file2 = some (c2 :: cs2, rest2) → c2 ≠ '@' → c2 ≠ '>' →
      parseLoop true fmt1 none (line :: rest1) file2 =
        ([], .error .autodetect2)) ∧
    (∀ es f : List Line, (∀ x ∈ es, x = ([] : Line)) →
      skipEmpties (es ++ f) = skipEmpties f) := by
  refine ⟨?_, ?_, ?_, ?_, ?_, ?_⟩
  · intro paired fmt1 fmt2 es f1 file2 h
    induction es with
    | nil => rfl
    | cons a t ih =>
      rw [List.cons_append,
        parseLoop_skip paired fmt1 fmt2 a (t ++ f1) file2 (by simp [h a (by simp)])]
      exact ih (fun l hl => h l (by simp [hl]))
  · intro paired fmt2 c cs rest file2 h1 h2
    exact parseLoop_detect1_fail paired none fmt2 (c :: cs) rest file2 (by simp)
      .autodetect1 (by simp [detectFormat, h1, h2])
  · intro paired fmt2 cs rest file2
    exact parseLoop_detect_switch paired fmt2 ('@' :: cs) rest file2 (by simp)
      true (by simp [detectFormat])
  · intro paired fmt2 cs rest file2
    exact parseLoop_detect_switch paired fmt2 ('>' :: cs) rest file2 (by simp)
      false (by simp [detectFormat])
  · intro fmt1 b1 line rest1 file2 c2 cs2 rest2 hl hd1 h2 hc1 hc2
    exact parseLoop_detect2_fail fmt1 none line (c2 :: cs2) rest1 file2 rest2 hl
      b1 hd1 h2 .autodetect2 (by simp [detectFormat, hc1, hc2])
  · exact skipEmpties_append_empties

/-- Witness for C4 at concrete one-record files. -/
theorem claim_C4_witness :
    parseLoop false none none ([[]] ++ [['X', 'A']]) [] =
      parseLoop false none none [['X', 'A']] [] ∧
    parseLoop false none none [['X', 'A']] [] = ([], .error .autodetect1) ∧
    parseLoop false none none [['@', 'r']] [] =
      parseLoop false (some true) none [['@', 'r']] [] ∧
    parseLoop false none none [['>', 'r']] [] =
      parseLoop false (some false) none [['>', 'r']] [] ∧
    parseLoop true (some true) none [['@', 'r'], ['A', 'C']] [['x', 'y']] =
      ([], .error .autodetect2) ∧
    skipEmpties ([[]] ++ [['a']]) = skipEmpties [['a']] := by
  obtain ⟨h1, h2, h3, h4, h5, h6⟩ := claim_C4_autodetect
  exact ⟨h1 false none none [[]] [['X', 'A']] [] (by simp),
    h2 false none 'X' ['A'] [] [] (by decide) (by decide),
    h3 false none ['r'] [] [],
    h4 false none ['r'] [] [],
    h5 (some true) true ['@', 'r'] [['A', 'C']] [['x', 'y']] 'x' ['y'] []
      (by simp) rfl rfl (by decide) (by decide),
    h6 [[]] [['a']] (by simp)⟩

/-- Claim C1: in paired mode, when file 2 reaches end of file (possibly
after trailing empty lines) while file 1 still has a pending read, the
run aborts with the fatal file-1-has-more-reads error and nothing is
pushed for that read; when instead file 1 is exhausted first, the run
always completes successfully, with the warning flag set whenever the
first leftover line of file 2 is non-empty (extra reads present). -/
theorem claim_C1_eof_mismatch :
    (∀ fmt1 fmt2 : Option Bool, ∀ es : List Line, ∀ line : Line,
      ∀ rest1 file2 : List Line,
      (∀ x ∈ es, x = ([] : Line)) → line.isEmpty = false →
      (∃ b1, detectFormat fmt1 line .autodetect1 = .ok b1) →
      (∀ x ∈ file2, x = ([] : Line)) →
      parseLoop true fmt1 fmt2 (es ++ line :: rest1) file2 =
        ([], .error .file1MoreReads)) ∧
    (∀ fmt1 fmt2 : Option Bool, ∀ file2 : List Line,
      parseLoop true fmt1 fmt2 [] file2 = ([], .ok (warnCheck file2))) ∧
    (∀ l : Line, ∀ r : List Line, l.isEmpty = false → warnCheck (l :: r) = true) := by
  refine ⟨?_, ?_, ?_⟩
  · intro fmt1 fmt2 es line rest1 file2 hes hl hd hf2
    obtain ⟨b1, hd1⟩ := hd
    induction es with
    | nil =>
      exact parseLoop_paired_file2Exhausted fmt1 fmt2 line rest1 file2 hl b1 hd1
        (skipEmpties_none_of_all file2 hf2)
    | cons a t ih =>
      rw [List.cons_append,
        parseLoop_skip true fmt1 fmt2 a (t ++ line :: rest1) file2
          (by simp [hes a (by simp)])]
      exact ih (fun l hl2 => hes l (by simp [hl2]))
  · intro fmt1 fmt2 file2
    rw [parseLoop_nil]
    simp
  · intro l r hl
    simp [warnCheck, hl]

/-- Witness for C1: a pending read in file 1 against an exhausted file 2
is fatal; an exhausted file 1 against a left-over read in file 2
completes with (only) the warning. -/
theorem claim_C1_witness :
    parseLoop true (some true) none ([] ++ ['@', 'r'] :: [['A', 'C']]) [[]] =
      ([], .error .file1MoreReads) ∧
    parseLoop true (some true) (some true) [] [['@', 'x'], ['A']] =
      ([], .ok (warnCheck [['@', 'x'], ['A']])) ∧
    warnCheck (['@', 'x'] :: [['A']]) = true := by
  obtain ⟨h1, h2, h3⟩ := claim_C1_eof_mismatch
  exact ⟨h1 (some true) none [] ['@', 'r'] [['A', 'C']] [[]] (by simp) (by simp)
      ⟨true, rfl⟩ (by simp),
    h2 (some true) (some true) [['@', 'x'], ['A']],
    h3 ['@', 'x'] [['A']] (by simp)⟩

/-- Claim C3: in paired mode, whenever the pending record of file 1 and
the first non-empty line of file 2 produce different truncated names,
the run aborts with the fatal names-desynchronised error, in the FASTQ
branch and in the FASTA branch alike (the detected format `b2` of file 2
is arbitrary). -/
theorem claim_C3_name_desync (b1 : Bool) (fmt2 : Option Bool) (line line2 : Line)
    (rest1 file2 rest2 : List Line) (b2 : Bool)
    (hl : line.isEmpty = false)
    (h2 : skipEmpties file2 = some (line2, rest2))
    (hd2 : detectFormat fmt2 line2 .autodetect2 = .ok b2)
    (hne : parseName line2 ≠ parseName line) :
    parseLoop true (some b1) fmt2 (line :: rest1) file2 =
      ([], .error .namesDesync) :=
  parseLoop_paired_desync (some b1) fmt2 line line2 rest1 file2 rest2 hl b1 rfl
    h2 b2 hd2 hne

/-- Witness for C3, once in the FASTQ branch of file 2 and once in the
FASTA branch. -/
theorem claim_C3_witness :
    parseLoop true true none [['@', 'a'], ['A', 'C']] [['@', 'b'], ['G']] =
      ([], .error .namesDesync) ∧
    parseLoop true false none [['>', 'a'], ['A', 'C']] [['>', 'c'], ['G']] =
      ([], .error .namesDesync) :=
  ⟨claim_C3_name_desync true none ['@', 'a'] ['@', 'b'] [['A', 'C']]
      [['@', 'b'], ['G']] [['G']] true (by simp) rfl (by simp [detectFormat])
      (by decide),
    claim_C3_name_desync false none ['>', 'a'] ['>', 'c'] [['A', 'C']]
      [['>', 'c'], ['G']] [['G']] false (by simp) rfl (by simp [detectFormat])
      (by decide)⟩

/-- Claim C2 counterexample: the FASTQ file consisting of the single
header line `@r1` — a truncated record with no sequence, `+` or quality
line — parses without any error: the record is enqueued with an empty
sequence and the run ends successfully, so a truncated FASTQ record does
not make the program exit non-zero. -/
theorem claim_C2_counterexample :
    parseLoop false none none [['@', 'r', '1']] [] =
      ([⟨['r', '1'], [], none⟩], .ok false) := by
  rw [parseLoop_detect_switch false none ['@', 'r', '1'] [] [] (by simp)
    true (by simp [detectFormat])]
  rw [parseLoop_cons_unpaired true none ['@', 'r', '1'] [] [] (by simp)]
  rw [show readRest true ([] : List Line) = [] from rfl, parseLoop_nil]
  rfl

/-- Claim C2 as amended: a truncated FASTQ record (header line present,
at most the sequence line and up to two further lines before end of
file) is not detected: `main` checks neither `getline` nor `ignore`, so
the record is enqueued with the sequence that was read (empty when even
the sequence line is missing) and parsing completes successfully. -/
theorem claim_C2_amended (header : Line) (rest : List Line)
    (hh : header.head? = some '@') (hr : rest.length ≤ 3) :
    parseLoop false none none (header :: rest) [] =
      ([⟨parseName header, strip (rest.headD []), none⟩], .ok false) := by
  have hl : header.isEmpty = false := by
    cases header with
    | nil => simp at hh
    | cons a t => simp
  rw [parseLoop_detect_switch false none header rest [] hl true
    (by simp [detectFormat, hh])]
  rw [parseLoop_cons_unpaired true none header rest [] hl]
  have hrest : readRest true rest = [] := by
    unfold readRest
    simp only [if_true]
    exact List.drop_eq_nil_of_le hr
  rw [hrest, parseLoop_nil]
  rfl

/-- Witness for the amended C2 at the single-line file `@r`. -/
theorem claim_C2_witness :
    parseLoop false none none [['@', 'r']] [] =
      ([⟨parseName ['@', 'r'], strip (([] : List Line).headD []), none⟩], .ok false) :=
  claim_C2_amended ['@', 'r'] [] rfl (by decide)

/-- In the FASTA branch, the gathered raw sequence of a record whose
body lines do not start with `>` and whose continuation is empty or
starts with a `>` line is the concatenation of the body lines. -/
theorem readRaw_fasta (body restf : List Line)
    (hb : ∀ l ∈ body, isGtLine l = false)
    (hr : restf = [] ∨ ∃ l ls, restf = l :: ls ∧ isGtLine l = true) :
    readRaw false (body ++ restf) = body.flatten := by
  unfold readRaw
  rw [if_neg (by simp)]
  rw [takeWhile_append_all _ body restf (fun l hl => by simp [hb l hl])]
  rw [takeWhile_head_false _ restf ?hhead]
  case hhead =>
    rcases hr with h | ⟨l, ls, rfl, hgt⟩
    · exact Or.inl h
    · exact Or.inr ⟨l, ls, rfl, by simp [hgt]⟩
  simp

/-- In the FASTA branch, the lines remaining after a record whose body
lines do not start with `>` and whose continuation is empty or starts
with a `>` line are exactly that continuation. -/
theorem readRest_fasta (body restf : List Line)
    (hb : ∀ l ∈ body, isGtLine l = false)
    (hr : restf = [] ∨ ∃ l ls, restf = l :: ls ∧ isGtLine l = true) :
    readRest false (body ++ restf) = restf := by
  unfold readRest
  rw [if_neg (by simp)]
  rw [dropWhile_append_all _ body restf (fun l hl => by simp [hb l hl])]
  apply dropWhile_head_false
  rcases hr with h | ⟨l, ls, rfl, hgt⟩
  · exact Or.inl h
  · exact Or.inr ⟨l, ls, rfl, by simp [hgt]⟩

/-- Claim C6: every character `strip` keeps is in the alphabet; for a
FASTA record of file 1 (unpaired) whose body lines do not start with `>`
and which ends at the next `>` line or at end of file, the `ReadItem`
pushed carries `strip` of the concatenation of the body lines, and the
loop continues after the record; the same holds for a FASTA record of
file 2 in paired mode. -/
theorem claim_C6_fasta_sequence :
    (∀ s : Line, ∀ c ∈ strip s, c.isAlpha = true) ∧
    (∀ fmt2 : Option Bool, ∀ header : Line, ∀ body restf file2 : List Line,
      header.isEmpty = false →
      (∀ l ∈ body, isGtLine l = false) →
      (restf = [] ∨ ∃ l ls, restf = l :: ls ∧ isGtLine l = true) →
      parseLoop false (some false) fmt2 (header :: (body ++ restf)) file2 =
        (⟨parseName header, strip body.flatten, none⟩ ::
           (parseLoop false (some false) fmt2 restf file2).1,
         (parseLoop false (some false) fmt2 restf file2).2)) ∧
    (∀ b1 : Bool, ∀ fmt2 : Option Bool, ∀ line line2 : Line,
      ∀ rest1 file2 body2 restf2 : List Line,
      line.isEmpty = false →
      skipEmpties file2 = some (line2, body2 ++ restf2) →
      detectFormat fmt2 line2 .autodetect2 = .ok false →
      parseName line2 = parseName line →
      (∀ l ∈ body2, isGtLine l = false) →
      (restf2 = [] ∨ ∃ l ls, restf2 = l :: ls ∧ isGtLine l = true) →
      parseLoop true (some b1) fmt2 (line :: rest1) file2 =
        (⟨parseName line, strip (readRaw b1 rest1), some (strip body2.flatten)⟩ ::
           (parseLoop true (some b1) (some false) (readRest b1 rest1) restf2).1,
         (parseLoop true (some b1) (some false) (readRest b1 rest1) restf2).2)) := by
  refine ⟨?_, ?_, ?_⟩
  · intro s c hc
    have := List.mem_filter.mp hc
    exact this.2
  · intro fmt2 header body restf file2 hh hb hr
    rw [parseLoop_cons_unpaired false fmt2 header (body ++ restf) file2 hh]
    rw [readRaw_fasta body restf hb hr, readRest_fasta body restf hb hr]
  · intro b1 fmt2 line line2 rest1 file2 body2 restf2 hl h2 hd2 heq hb hr
    rw [parseLoop_paired_step (some b1) fmt2 line line2 rest1 file2
      (body2 ++ restf2) hl b1 rfl h2 false hd2 heq]
    rw [readRaw_fasta body2 restf2 hb hr, readRest_fasta body2 restf2 hb hr]

/-- Witness for C6 at a concrete two-line FASTA record followed by a
further record, and at a concrete paired FASTA mate. -/
theorem claim_C6_witness :
    (∀ c ∈ strip ['A', '1', 'c'], c.isAlpha = true) ∧
    parseLoop false (some false) none
        (['>', 'r'] :: ([['A', 'C'], ['1', 'G']] ++ [['>', 'x']])) [] =
      (⟨parseName ['>', 'r'], strip [['A', 'C'], ['1', 'G']].flatten, none⟩ ::
         (parseLoop false (some false) none [['>', 'x']] []).1,
       (parseLoop false (some false) none [['>', 'x']] []).2) ∧
    parseLoop true (some false) (some false) (['>', 'r'] :: [[]])
        [['>', 'r'], ['T', 'T']] =
      (⟨parseName ['>', 'r'], strip (readRaw false [[]]),
          some (strip [['T', 'T']].flatten)⟩ ::
         (parseLoop true (some false) (some false) (readRest false [[]]) []).1,
       (parseLoop true (some false) (some false) (readRest false [[]]) []).2) := by
  obtain ⟨h1, h2, h3⟩ := claim_C6_fasta_sequence
  refine ⟨h1 ['A', '1', 'c'], ?_, ?_⟩
  · exact h2 none ['>', 'r'] [['A', 'C'], ['1', 'G']] [['>', 'x']] [] (by simp)
      (by decide) (Or.inr ⟨['>', 'x'], [], rfl, rfl⟩)
  · exact h3 false (some false) ['>', 'r'] ['>', 'r'] [[]]
      [['>', 'r'], ['T', 'T']] [['T', 'T']] [] (by simp)
      (by rfl) rfl rfl (by decide) (Or.inl rfl)

/-- A successful option step never turns off protein input, paired mode
or the E-value switch (no case of the `switch` resets them). -/
theorem processOpt_mono (P : Params) (o : Opt) (Q : Params)
    (h : processOpt P o = .ok Q) :
    (P.input_is_protein = true → Q.input_is_protein = true) ∧
    (P.paired = true → Q.paired = true) ∧
    (P.use_Evalue = true → Q.use_Evalue = true) := by
  cases o <;>
    simp only [processOpt, handle_l, handle_s, handle_m, handle_e, handle_E,
      handle_z] at h <;>
    (repeat' split at h) <;> (try injection h with h) <;> (try subst h) <;>
    simp_all

/-- Invariant preservation along a successful option fold. -/
theorem foldOpts_preserve (inv : Params → Prop)
    (hpres : ∀ P o Q, processOpt P o = .ok Q → inv P → inv Q) :
    ∀ opts : List Opt, ∀ P0 P : Params,
      foldOpts P0 opts = .ok P → inv P0 → inv P := by
  intro opts
  induction opts with
  | nil =>
    intro P0 P h h0
    simp only [foldOpts] at h
    cases h
    exact h0
  | cons o rest ih =>
    intro P0 P h h0
    simp only [foldOpts] at h
    cases hstep : processOpt P0 o with
    | error e => rw [hstep] at h; cases h
    | ok Q => rw [hstep] at h; exact ih Q P h (hpres P0 o Q hstep h0)

/-- A successful fold over an appended option list splits at the
boundary. -/
theorem foldOpts_split (opts1 opts2 : List Opt) (P0 P : Params)
    (h : foldOpts P0 (opts1 ++ opts2) = .ok P) :
    ∃ Pm, foldOpts P0 opts1 = .ok Pm ∧ foldOpts Pm opts2 = .ok P := by
  induction opts1 generalizing P0 with
  | nil => exact ⟨P0, rfl, h⟩
  | cons o rest ih =>
    rw [List.cons_append] at h
    simp only [foldOpts] at h ⊢
    cases hstep : processOpt P0 o with
    | error e => rw [hstep] at h; cases h
    | ok Q => rw [hstep] at h; exact ih Q h

/-- If `-p` occurs and the option fold succeeds, protein input is on. -/
theorem foldOpts_protein (opts : List Opt) (P : Params)
    (h : foldOpts defaultParams opts = .ok P) (hmem : Opt.p ∈ opts) :
    P.input_is_protein = true := by
  obtain ⟨s, t, rfl⟩ := List.append_of_mem hmem
  obtain ⟨Pm, hs, ht⟩ := foldOpts_split s (Opt.p :: t) defaultParams P h
  simp only [foldOpts, processOpt] at ht
  exact foldOpts_preserve (fun R => R.input_is_protein = true)
    (fun R o Q hq hR => (processOpt_mono R o Q hq).1 hR) t _ P ht rfl

/-- If `-j` occurs and the option fold succeeds, paired mode is on. -/
theorem foldOpts_paired (opts : List Opt) (P : Params) (arg : Line)
    (h : foldOpts defaultParams opts = .ok P) (hmem : Opt.j arg ∈ opts) :
    P.paired = true := by
  obtain ⟨s, t, rfl⟩ := List.append_of_mem hmem
  obtain ⟨Pm, hs, ht⟩ := foldOpts_split s (Opt.j arg :: t) defaultParams P h
  simp only [foldOpts, processOpt] at ht
  exact foldOpts_preserve (fun R => R.paired = true)
    (fun R o Q hq hR => (processOpt_mono R o Q hq).2.1 hR) t _ P ht rfl

/-- If `-E` occurs with a parseable positive value and the option fold
succeeds, the E-value switch is on. -/
theorem foldOpts_useEvalue (opts : List Opt) (P : Params) (arg : Line)
    (v : ℚ) (hv : stod arg = .ok v) (hpos : 0 < v)
    (h : foldOpts defaultParams opts = .ok P) (hmem : Opt.E arg ∈ opts) :
    P.use_Evalue = true := by
  obtain ⟨s, t, rfl⟩ := List.append_of_mem hmem
  obtain ⟨Pm, hs, ht⟩ := foldOpts_split s (Opt.E arg :: t) defaultParams P h
  simp only [foldOpts, processOpt, handle_E, hv, if_neg (not_le.mpr hpos)] at ht
  exact foldOpts_preserve (fun R => R.use_Evalue = true)
    (fun R o Q hq hR => (processOpt_mono R o Q hq).2.2 hR) t _ P ht rfl

/-- The argument check chain stops at the paired-protein conflict when
the mandatory filenames are present. -/
theorem validate_pairedProtein (P : Params)
    (hn : P.nodes_filename.isEmpty = false) (hf : P.fmi_filename.isEmpty = false)
    (hi : P.in1_filename.isEmpty = false) (hp : P.paired = true)
    (hpr : P.input_is_protein = true) :
    validate P = .error .pairedProtein := by
  unfold validate
  simp [hn, hf, hi, hp, hpr]

/-- The argument check chain stops at the E-value-needs-greedy conflict
when the mandatory filenames are present and the paired-protein check
passes. -/
theorem validate_evalueMem (P : Params)
    (hn : P.nodes_filename.isEmpty = false) (hf : P.fmi_filename.isEmpty = false)
    (hi : P.in1_filename.isEmpty = false)
    (hpp : (P.paired && P.input_is_protein) = false)
    (he : P.use_Evalue = true) (hm : P.mode = Mode.MEM) :
    validate P = .error .evalueNotGreedy := by
  unfold validate
  simp [hn, hf, hi, hpp, he, hm]

/-- An argument-check failure aborts `mainModel` before any action. -/
theorem mainModel_argErr (opts : List Opt) (fs : Line → List Line) (P : Params)
    (e : ArgErr) (hfold : foldOpts defaultParams opts = .ok P)
    (hval : validate P = .error e) :
    mainModel opts fs = ([], .error (.exitArg e)) := by
  unfold mainModel
  simp only [hfold, hval]

/-- Claim C7: with the mandatory `-t`, `-f`, `-i` present, a command
line whose processed options leave both paired mode (`-j`) and protein
input (`-p`) on, or the E-value switch (`-E`) on with MEM mode
(`-a mem`), makes the program exit non-zero through `usage` with an
empty action trace: the taxonomy load, the FM-index load and every input
read all happen only after the checks, so none of them is performed.
The option-to-state conjuncts record that `-p`, `-j` and a valid `-E`
indeed set the corresponding state. -/
theorem claim_C7_flag_conflicts :
    (∀ opts : List Opt, ∀ fs : Line → List Line, ∀ P : Params,
      foldOpts defaultParams opts = .ok P →
      P.nodes_filename.isEmpty = false → P.fmi_filename.isEmpty = false →
      P.in1_filename.isEmpty = false →
      P.paired = true → P.input_is_protein = true →
      mainModel opts fs = ([], .error (.exitArg .pairedProtein))) ∧
    (∀ opts : List Opt, ∀ fs : Line → List Line, ∀ P : Params,
      foldOpts defaultParams opts = .ok P →
      P.nodes_filename.isEmpty = false → P.fmi_filename.isEmpty = false →
      P.in1_filename.isEmpty = false →
      (P.paired && P.input_is_protein) = false →
      P.use_Evalue = true → P.mode = Mode.MEM →
      mainModel opts fs = ([], .error (.exitArg .evalueNotGreedy))) ∧
    (∀ opts : List Opt, ∀ P : Params, foldOpts defaultParams opts = .ok P →
      Opt.p ∈ opts → P.input_is_protein = true) ∧
    (∀ opts : List Opt, ∀ P : Params, ∀ arg : Line,
      foldOpts defaultParams opts = .ok P → Opt.j arg ∈ opts → P.paired = true) ∧
    (∀ opts : List Opt, ∀ P : Params, ∀ arg : Line, ∀ v : ℚ,
      stod arg = .ok v → 0 < v → foldOpts defaultParams opts = .ok P →
      Opt.E arg ∈ opts → P.use_Evalue = true) ∧
    (∀ e : MainErr, exitCode e = 1) := by
  refine ⟨?_, ?_, ?_, ?_, ?_, ?_⟩
  · intro opts fs P hfold hn hf hi hp hpr
    exact mainModel_argErr opts fs P .pairedProtein hfold
      (validate_pairedProtein P hn hf hi hp hpr)
  · intro opts fs P hfold hn hf hi hpp he hm
    exact mainModel_argErr opts fs P .evalueNotGreedy hfold
      (validate_evalueMem P hn hf hi hpp he hm)
  · exact foldOpts_protein
  · intro opts P arg hfold hmem
    exact foldOpts_paired opts P arg hfold hmem
  · intro opts P arg v hv hpos hfold hmem
    exact foldOpts_useEvalue opts P arg v hv hpos hfold hmem
  · intro e
    rfl

set_option maxRecDepth 8192 in
/-- Witness for C7 on the concrete conflicting command lines
`-t n -f d -i a -p -j b` and `-t n -f d -i a -E 1 -a mem`. -/
theorem claim_C7_witness :
    mainModel [Opt.t ['n'], Opt.f ['d'], Opt.i ['a'], Opt.p, Opt.j ['b']]
        (fun _ => []) = ([], .error (.exitArg .pairedProtein)) ∧
    mainModel [Opt.t ['n'], Opt.f ['d'], Opt.i ['a'], Opt.E ['1'], Opt.a ['m', 'e', 'm']]
        (fun _ => []) = ([], .error (.exitArg .evalueNotGreedy)) := by
  obtain ⟨h1, h2, _, _, _, _⟩ := claim_C7_flag_conflicts
  constructor
  · have hP : foldOpts defaultParams
        [Opt.t ['n'], Opt.f ['d'], Opt.i ['a'], Opt.p, Opt.j ['b']] =
        .ok { defaultParams with nodes_filename := ['n'], fmi_filename := ['d'], in1_filename := ['a'], input_is_protein := true, in2_filename := ['b'], paired := true } := by
      decide
    exact h1 _ _ _ hP (by decide) (by decide) (by decide) (by decide) (by decide)
  · have hP : foldOpts defaultParams
        [Opt.t ['n'], Opt.f ['d'], Opt.i ['a'], Opt.E ['1'], Opt.a ['m', 'e', 'm']] =
        .ok { defaultParams with nodes_filename := ['n'], fmi_filename := ['d'], in1_filename := ['a'], min_Evalue := 1, use_Evalue := true, mode := Mode.MEM } := by
      decide
    exact h2 _ _ _ hP (by decide) (by decide) (by decide) (by decide) (by decide)
      (by decide)

/-- Claim C8: the transcription of the list-length condition (with C++
`&`/`&&`/`||` precedence resolved) is equivalent to: when `-o` is given,
the `-i`, `-j` (if paired) and `-o` lists must have equal lengths, and
when `-o` is absent but `-j` is given the `-i` and `-j` lists must have
equal lengths.  Any violation makes `mainModel` stop with the
list-length error, exit status 1, with an empty action trace — before
the taxonomy or index are loaded and before any file is processed. -/
theorem claim_C8_list_lengths :
    (∀ out : Line, ∀ paired : Bool, ∀ n1 n2 no : Nat,
      lengthCheckFails out paired n1 n2 no = true ↔
        ((out ≠ [] ∧ ((paired = true ∧ ¬(n1 = n2 ∧ n1 = no)) ∨
           (paired = false ∧ n1 ≠ no))) ∨
         (out = [] ∧ paired = true ∧ n1 ≠ n2))) ∧
    (∀ opts : List Opt, ∀ fs : Line → List Line, ∀ P : Params,
      foldOpts defaultParams opts = .ok P → validate P = .ok () →
      lengthCheckFails P.output_filename P.paired
        (splitList P.in1_filename).length (splitList P.in2_filename).length
        (splitList P.output_filename).length = true →
      mainModel opts fs = ([], .error .listLengthMismatch)) ∧
    exitCode .listLengthMismatch = 1 := by
  refine ⟨?_, ?_, rfl⟩
  · intro out paired n1 n2 no
    unfold lengthCheckFails
    cases paired <;> cases out <;> simp <;> tauto
  · intro opts fs P hfold hval hlen
    unfold mainModel
    simp only [hfold, hval, hlen, if_true]

/-- Witness for C8: `-i a,b` with a single `-o x` (unpaired) violates
the length check and stops the program. -/
theorem claim_C8_witness :
    (lengthCheckFails ['x'] false 2 0 1 = true ↔
      ((['x'] ≠ ([] : Line) ∧ ((false = true ∧ ¬((2 : Nat) = 0 ∧ (2 : Nat) = 1)) ∨
         (false = false ∧ (2 : Nat) ≠ 1))) ∨
       (['x'] = ([] : Line) ∧ false = true ∧ (2 : Nat) ≠ 0))) ∧
    mainModel [Opt.t ['n'], Opt.f ['d'], Opt.i ['a', ',', 'b'], Opt.o ['x']]
      (fun _ => []) = ([], .error .listLengthMismatch) := by
  obtain ⟨h1, h2, _⟩ := claim_C8_list_lengths
  constructor
  · exact h1 ['x'] false 2 0 1
  · have hP : foldOpts defaultParams
        [Opt.t ['n'], Opt.f ['d'], Opt.i ['a', ',', 'b'], Opt.o ['x']] =
        .ok { defaultParams with nodes_filename := ['n'], fmi_filename := ['d'], in1_filename := ['a', ',', 'b'], output_filename := ['x'] } := by
      decide
    exact h2 _ _ _ hP (by decide) (by decide)

/-- Claim C10: for each numeric flag, an argument on which the numeric
conversion raises (`invalid_argument` or `out_of_range`) only prints a
message and leaves the configuration unchanged — execution continues
with the previous (default) value and the program does not exit — while
a converted value violating the flag's allowed range exits non-zero
through `usage`, and a converted value in range is stored. -/
theorem claim_C10_numeric_flags :
    (∀ P : Params, ∀ arg : Line, ∀ err : NumErr, stoi arg = .error err →
      handle_l P arg = .ok P ∧ handle_s P arg = .ok P ∧
      handle_m P arg = .ok P ∧ handle_e P arg = .ok P ∧
      handle_z P arg = .ok P) ∧
    (∀ P : Params, ∀ arg : Line, ∀ err : NumErr, stod arg = .error err →
      handle_E P arg = .ok P) ∧
    (∀ P : Params, ∀ arg : Line, ∀ v : Int, stoi arg = .ok v →
      (v < 7 → handle_l P arg = .error .usageExit) ∧
      (7 ≤ v → handle_l P arg = .ok { P with seed_length := v }) ∧
      (v ≤ 0 → handle_s P arg = .error .usageExit) ∧
      (0 < v → handle_s P arg = .ok { P with min_score := v }) ∧
      (v ≤ 0 → handle_m P arg = .error .usageExit) ∧
      (0 < v → handle_m P arg = .ok { P with min_fragment_length := v }) ∧
      (v < 0 → handle_e P arg = .error .usageExit) ∧
      (0 ≤ v → handle_e P arg = .ok { P with mismatches := v }) ∧
      (v ≤ 0 → handle_z P arg = .error .usageExit) ∧
      (0 < v → handle_z P arg = .ok { P with num_threads := v })) ∧
    (∀ P : Params, ∀ arg : Line, ∀ q : ℚ, stod arg = .ok q →
      (q ≤ 0 → handle_E P arg = .error .usageExit) ∧
      (0 < q → handle_E P arg = .ok { P with min_Evalue := q, use_Evalue := true })) := by
  refine ⟨?_, ?_, ?_, ?_⟩
  · intro P arg err h
    refine ⟨?_, ?_, ?_, ?_, ?_⟩ <;> simp [handle_l, handle_s, handle_m, handle_e, handle_z, h]
  · intro P arg err h
    simp [handle_E, h]
  · intro P arg v h
    refine ⟨?_, ?_, ?_, ?_, ?_, ?_, ?_, ?_, ?_, ?_⟩ <;> intro hv
    · simp only [handle_l, h]; rw [if_pos hv]
    · simp only [handle_l, h]; rw [if_neg (by omega)]
    · simp only [handle_s, h]; rw [if_pos hv]
    · simp only [handle_s, h]; rw [if_neg (by omega)]
    · simp only [handle_m, h]; rw [if_pos hv]
    · simp only [handle_m, h]; rw [if_neg (by omega)]
    · simp only [handle_e, h]; rw [if_pos hv]
    · simp only [handle_e, h]; rw [if_neg (by omega)]
    · simp only [handle_z, h]; rw [if_pos hv]
    · simp only [handle_z, h]; rw [if_neg (by omega)]
  · intro P arg q h
    constructor <;> intro hq
    · simp only [handle_E, h]; rw [if_pos hq]
    · simp only [handle_E, h]; rw [if_neg (not_le.mpr hq)]

set_option maxRecDepth 8192 in
/-- Witness for C10: `-l a` and `-E x` fail conversion and continue
with the defaults; `-l 5` is out of range and exits via usage; `-s 5`
is stored; `-E 0` is out of range and exits via usage. -/
theorem claim_C10_witness :
    handle_l defaultParams ['a'] = .ok defaultParams ∧
    handle_E defaultParams ['x'] = .ok defaultParams ∧
    handle_l defaultParams ['5'] = .error .usageExit ∧
    handle_s defaultParams ['5'] = .ok { defaultParams with min_score := 5 } ∧
    handle_E defaultParams ['0'] = .error .usageExit := by
  obtain ⟨h1, h2, h3, h4⟩ := claim_C10_numeric_flags
  refine ⟨(h1 defaultParams ['a'] .invalidArgument (by decide)).1,
    h2 defaultParams ['x'] .invalidArgument (by decide),
    (h3 defaultParams ['5'] 5 (by decide)).1 (by decide),
    (h3 defaultParams ['5'] 5 (by decide)).2.2.2.1 (by decide),
    (h4 defaultParams ['0'] 0 (by decide)).1 (by decide)⟩

/-- Claim C9: the per-pair trace `pairBlock` creates exactly one work
queue, always with capacity 500, and calls `pushedLast` exactly once —
after every push of that pair, with the join of all workers and the
output flush following it (in that order, at the end of the block); a
successful run of the file-pair loop produces exactly the concatenation
of the per-pair blocks, so each pair's workers are joined and its output
flushed before the next pair's first action; and a successful `mainModel`
run is the taxonomy and index loads followed by that concatenation. -/
theorem claim_C9_pipeline_trace :
    (∀ hasOut : Bool, ∀ z : Int, ∀ items : List ReadItem, ∀ w : Bool,
      (pairBlock hasOut z items w).count (Act.createQueue 500) = 1 ∧
      (∀ c : Nat, Act.createQueue c ∈ pairBlock hasOut z items w → c = 500) ∧
      (pairBlock hasOut z items w).count Act.pushedLast = 1 ∧
      (∃ pre post, pairBlock hasOut z items w = pre ++ Act.pushedLast :: post ∧
        pre = startActs hasOut z ++ items.map Act.pushItem ∧
        (∀ it : ReadItem, Act.pushItem it ∉ post) ∧
        post = (if w then [Act.warnExtraReads] else []) ++
          [Act.joinAll, Act.flushOut])) ∧
    (∀ z : Int, ∀ hasOut paired : Bool, ∀ pairs : List (List Line × List Line),
      (processPairs z hasOut paired pairs).2 = .ok () →
      (processPairs z hasOut paired pairs).1 =
        (pairs.map (blockOf hasOut z paired)).flatten) ∧
    (∀ opts : List Opt, ∀ fs : Line → List Line, ∀ P : Params,
      foldOpts defaultParams opts = .ok P → validate P = .ok () →
      lengthCheckFails P.output_filename P.paired
        (splitList P.in1_filename).length (splitList P.in2_filename).length
        (splitList P.output_filename).length = false →
      mainModel opts fs =
        ([Act.loadTaxonomy, Act.loadFMI] ++
           (processPairs P.num_threads (!P.output_filename.isEmpty) P.paired
             (mkPairs P.paired fs (splitList P.in1_filename)
               (splitList P.in2_filename))).1,
         (processPairs P.num_threads (!P.output_filename.isEmpty) P.paired
           (mkPairs P.paired fs (splitList P.in1_filename)
             (splitList P.in2_filename))).2)) := by
  refine ⟨?_, ?_, ?_⟩
  · intro hasOut z items w
    have hpush : ∀ a : Act, (∀ it : ReadItem, a ≠ Act.pushItem it) →
        (items.map Act.pushItem).count a = 0 := by
      intro a ha
      rw [List.count_eq_zero]
      simp only [List.mem_map]
      rintro ⟨it, _, hit⟩
      exact ha it hit.symm
    refine ⟨?_, ?_, ?_, ?_⟩
    · cases hasOut <;> cases w <;>
        simp [pairBlock, startActs, List.count_append, List.count_cons,
          hpush (Act.createQueue 500) (by intro it h; cases h)]
    · intro c hc
      cases hasOut <;> cases w <;>
        simp [pairBlock, startActs, List.mem_append, List.mem_map] at hc <;>
        tauto
    · cases hasOut <;> cases w <;>
        simp [pairBlock, startActs, List.count_append, List.count_cons,
          hpush Act.pushedLast (by intro it h; cases h)]
    · refine ⟨startActs hasOut z ++ items.map Act.pushItem,
        (if w then [Act.warnExtraReads] else []) ++ [Act.joinAll, Act.flushOut],
        ?_, rfl, ?_, rfl⟩
      · simp [pairBlock, List.append_assoc]
      · intro it
        cases w <;> simp
  · intro z hasOut paired pairs
    induction pairs with
    | nil => intro _; rfl
    | cons pr rest ih =>
      intro h
      simp only [processPairs] at h ⊢
      cases hr : (parseLoop paired none none pr.1 pr.2).2 with
      | error e =>
        rw [hr] at h
        simp at h
      | ok w =>
        rw [hr] at h
        have h2 : (processPairs z hasOut paired rest).2 = .ok () := h
        simp [blockOf, okWarn, hr, ih h2]
  · intro opts fs P hfold hval hlen
    unfold mainModel
    simp only [hfold, hval, hlen, Bool.false_eq_true, if_false]

/-- Witness for C9: a run over the single input file `@r` produces
exactly its pair block, and `mainModel` on `-t n -f d -i a` is the two
loads followed by the pair traces. -/
theorem claim_C9_witness :
    (processPairs 1 false false [([['@', 'r']], [])]).1 =
      ([([['@', 'r']], ([] : List Line))].map (blockOf false 1 false)).flatten ∧
    mainModel [Opt.t ['n'], Opt.f ['d'], Opt.i ['a']] (fun _ => [['@', 'r']]) =
      ([Act.loadTaxonomy, Act.loadFMI] ++
         (processPairs 1 false false (mkPairs false (fun _ => [['@', 'r']])
           (splitList ['a']) (splitList []))).1,
       (processPairs 1 false false (mkPairs false (fun _ => [['@', 'r']])
         (splitList ['a']) (splitList []))).2) := by
  obtain ⟨_, h2, h3⟩ := claim_C9_pipeline_trace
  have hparse : parseLoop false none none [['@', 'r']] [] =
      ([⟨['r'], [], none⟩], .ok false) := by
    rw [parseLoop_detect_switch false none ['@', 'r'] [] [] (by simp) true
      (by simp [detectFormat])]
    rw [parseLoop_cons_unpaired true none ['@', 'r'] [] [] (by simp)]
    rw [show readRest true ([] : List Line) = [] from rfl, parseLoop_nil]
    rfl
  constructor
  · exact h2 1 false false [([['@', 'r']], [])] (by simp [processPairs, hparse])
  · have hP : foldOpts defaultParams [Opt.t ['n'], Opt.f ['d'], Opt.i ['a']] =
        .ok { defaultParams with nodes_filename := ['n'], fmi_filename := ['d'], in1_filename := ['a'] } := by
      decide
    exact h3 _ _ _ hP (by decide) (by decide)
